import Mathlib

/-!
# Verification of the pouchy document access & lifecycle layer

Shallow embedding of `src/src/public.js` (pouchy 12.0.3): the `all`,
`bulkGet`, `createIndicies`, `destroy`, `save` and `update` operations of
the public method table, together with the backend contracts of §6 of the
specification where an operation's behaviour depends on them.

JavaScript objects are modelled as association lists from field names to a
small JS value type; property assignment, deletion and truthiness follow
the JS semantics the code relies on.
-/

set_option autoImplicit false

namespace Pouchy

/-- A JavaScript value as the embedded code observes it: strings, integer
numbers, booleans, `null`, `undefined`, and objects as association lists
of fields (insertion-ordered, first binding wins on lookup). -/
inductive Val : Type where
  | vStr (s : String)
  | vNum (n : Int)
  | vBool (b : Bool)
  | vNull
  | vUndefined
  | vObj (fields : List (String × Val))
deriving Repr

/-- A JavaScript object: an insertion-ordered association list of fields. -/
abbrev Obj : Type := List (String × Val)

/-- JS truthiness for the values of the model: `""`, `0`, `false`, `null`
and `undefined` are falsy, every object is truthy. -/
def truthy : Val → Bool
  | .vStr s => !(s = "")
  | .vNum n => !(n = 0)
  | .vBool b => b
  | .vNull => false
  | .vUndefined => false
  | .vObj _ => true

/-- JS strict equality with the number zero, `v === 0`. -/
def isNumZero : Val → Bool
  | .vNum n => n = 0
  | _ => false

/-- First binding of a field in an object, `none` when absent. -/
def objGet : Obj → String → Option Val
  | [], _ => none
  | (k, v) :: rest, key => if k = key then some v else objGet rest key

/-- `obj.hasOwnProperty(key)` on the model: the field is present. -/
def objHas (o : Obj) (key : String) : Bool :=
  (objGet o key).isSome

/-- Property read as an expression: an absent field reads as `undefined`. -/
def objGetD (o : Obj) (key : String) : Val :=
  (objGet o key).getD .vUndefined

/-- JS property assignment `obj[key] = v`: replaces the existing binding in
place, or appends a new binding at the end (JS insertion order). -/
def objSet : Obj → String → Val → Obj
  | [], key, v => [(key, v)]
  | (k, w) :: rest, key, v =>
      if k = key then (k, v) :: rest else (k, w) :: objSet rest key v

/-- JS `delete obj[key]`: removes every binding of the field. -/
def objDelete (o : Obj) (key : String) : Obj :=
  o.filter (fun f => !(f.1 = key))

/-- Field names of an object in order. -/
def objKeys (o : Obj) : List String :=
  o.map Prod.fst

/-- Property read on an arbitrary value, as in `doc.key`: reads the field of
an object, `undefined` otherwise (the code only dereferences values its
backend contract guarantees are objects). -/
def jsGet (v : Val) (key : String) : Val :=
  match v with
  | .vObj fields => objGetD fields key
  | _ => .vUndefined

/-- The write method `save` dispatches to on the backend. -/
inductive WriteMethod : Type where
  | put
  | post
deriving Repr, DecidableEq

/-- `save`, method choice (public.js line 311):
`doc.hasOwnProperty('_id') && (doc._id || doc._id === 0) ? 'put' : 'post'`.
`doc._id` is JS truthiness; `doc._id === 0` is strict equality with the
number zero. -/
def saveMethod (doc : Obj) : WriteMethod :=
  if objHas doc "_id" && (truthy (objGetD doc "_id") || isNumZero (objGetD doc "_id"))
  then .put else .post

/-- The metadata a successful backend `put`/`post` resolves with. -/
structure WriteMeta : Type where
  id : String
  rev : String
deriving Repr, DecidableEq

/-- A backend failure surfaced by this layer; `status` is the backend's
numeric status code (409 is its conflict status). -/
structure BackendErr : Type where
  status : Nat
deriving Repr, DecidableEq

/-- `save`, success continuation `tidySaveResults` (public.js lines 313-318):
mutates the caller's doc in place, `doc._id = meta.id; doc._rev = meta.rev`,
and returns that same doc (the `delete meta.status` line touches only the
backend's meta object, not the doc). -/
def tidySaveResults (doc : Obj) (meta : WriteMeta) : Obj :=
  objSet (objSet doc "_id" (.vStr meta.id)) "_rev" (.vStr meta.rev)

/-- `update`, success continuation (public.js lines 285-289):
`doc._id = meta.id; doc._rev = meta.rev; return doc`. -/
def updateTidy (doc : Obj) (meta : WriteMeta) : Obj :=
  objSet (objSet doc "_id" (.vStr meta.id)) "_rev" (.vStr meta.rev)

/-- `save(doc)` given the backend's settled response to the chosen write:
on success the caller's doc, mutated, is the resolution value; a backend
failure propagates (public.js lines 307-319). -/
def save (doc : Obj) (resp : Except BackendErr WriteMeta) :
    Except BackendErr Obj :=
  resp.map (tidySaveResults doc)

/-- `update(doc)` given the backend's settled response to the `put`
(public.js lines 281-290). -/
def update (doc : Obj) (resp : Except BackendErr WriteMeta) :
    Except BackendErr Obj :=
  resp.map (updateTidy doc)

/-! ## Listing service: `all` (public.js lines 46-66) -/

/-- Truthiness of `id.match(designDocRegex)` for `designDocRegex =
new RegExp('^_design/')` (public.js line 9): the identifier is a string
beginning with the reserved design-document marker.  (`all` only evaluates
the match when `includeDesignDocs` is truthy, on documents whose `_id` the
backend contract guarantees is a string.) -/
def matchesDesignDocRegex : Val → Bool
  | .vStr s => List.isPrefixOf "_design/".data s.data
  | _ => false

/-- `all`, stub normalization (public.js lines 53-58), run on each row when
`include_docs` is false: `doc._id = doc.id; doc._rev = doc.value.rev;
delete doc.id; delete doc.value; delete doc.key`. -/
def normalizeStubRow (row : Obj) : Obj :=
  let d := objSet row "_id" (objGetD row "id")
  let d := objSet d "_rev" (jsGet (objGetD d "value") "rev")
  let d := objDelete d "id"
  let d := objDelete d "value"
  objDelete d "key"

/-- `all`, reducer `simplifyAllDocSet` over `docs.rows` (public.js lines
50-64): pick `v.doc` when `include_docs` else the normalized stub, then
`if (!opts.includeDesignDocs) r.push(doc)
 else if (opts.includeDesignDocs && doc._id.match(designDocRegex)) r.push(doc)`. -/
def simplifyAllDocSet (includeDocs includeDesignDocs : Bool)
    (rows : List Obj) : List Val :=
  rows.foldl
    (fun r v =>
      let doc : Val := if includeDocs then objGetD v "doc"
                       else .vObj (normalizeStubRow v)
      if !includeDesignDocs then r ++ [doc]
      else if includeDesignDocs && matchesDesignDocRegex (jsGet doc "_id")
      then r ++ [doc]
      else r)
    []

/-- The options of `all` this layer inspects: `include_docs` (absent means
unset, filled to `true` by `defaults(opts || \x7b\x7d, { include_docs: true })`)
and the truthiness of `includeDesignDocs` (absent reads falsy). -/
structure AllOpts : Type where
  includeDocs : Option Bool
  includeDesignDocs : Bool
deriving Repr, DecidableEq

/-- `include_docs` after the lodash `defaults` fill (public.js line 47). -/
def allIncludeDocs (o : AllOpts) : Bool :=
  o.includeDocs.getD true

/-- `all(opts)` applied to the `rows` of the backend enumeration response
(public.js lines 46-66). -/
def all (o : AllOpts) (rows : List Obj) : List Val :=
  simplifyAllDocSet (allIncludeDocs o) o.includeDesignDocs rows

/-! ## Bulk fetch service: `bulkGet` (public.js lines 99-125) -/

/-- The failures `bulkGet` raises. -/
inductive PouchyErr : Type where
  | missingBulkGetOpts
  | docsFilterNotArray
  | docNotFound (id : String)
deriving Repr, DecidableEq

/-- `bulkGet`, remap statement `if (doc._id) doc.id = doc._id`
(public.js line 109). -/
def remapIdStep (doc : Obj) : Obj :=
  if truthy (objGetD doc "_id")
  then objSet doc "id" (objGetD doc "_id") else doc

/-- `bulkGet`, remap statement `if (doc._rev) doc.rev = doc._rev`
(public.js line 111). -/
def remapRevStep (doc : Obj) : Obj :=
  if truthy (objGetD doc "_rev")
  then objSet doc "rev" (objGetD doc "_rev") else doc

/-- `bulkGet`, entry remap `remapIdRev` (public.js lines 106-115), run on
every entry before the empty check and the backend call:
`if (doc._id) doc.id = doc._id; if (doc._rev) doc.rev = doc._rev;
delete doc._rev; delete doc._id; return doc`. -/
def remapIdRev (doc : Obj) : Obj :=
  objDelete (objDelete (remapRevStep (remapIdStep doc)) "_rev") "_id"

/-- The input shapes `bulkGet(opts)` distinguishes (public.js lines
101-105): a falsy `opts`, a bare array, an object with a `docs` array, or
an object whose `docs` is not an array. -/
inductive BulkGetInput : Type where
  | missingOpts
  | arr (docs : List Obj)
  | withDocs (docs : List Obj)
  | docsNotArray

/-- What the front half of `bulkGet` decides to do: resolve immediately
(the empty short-circuit, public.js line 116) or issue the one batched
backend request with the remapped filters (line 117). -/
inductive BulkGetPlan : Type where
  | immediate (result : List Val)
  | callBackend (docs : List Obj)

/-- `bulkGet`, argument validation and front half (public.js lines 99-117):
throw on falsy opts, wrap a bare array as `{docs}`, throw when `docs` is
not an array, remap every entry, short-circuit on an empty array, else
plan the backend call. -/
def bulkGetPrepare : BulkGetInput → Except PouchyErr BulkGetPlan
  | .missingOpts => .error .missingBulkGetOpts
  | .docsNotArray => .error .docsFilterNotArray
  | .arr docs =>
      let remapped := docs.map remapIdRev
      if remapped.length = 0 then .ok (.immediate [])
      else .ok (.callBackend remapped)
  | .withDocs docs =>
      let remapped := docs.map remapIdRev
      if remapped.length = 0 then .ok (.immediate [])
      else .ok (.callBackend remapped)

/-- One group of the backend's batched response `r.results`: the requested
identifier and its list of per-revision attempts, each an object carrying
`ok` (a document) or `error`. -/
structure DocGroup : Type where
  id : String
  docs : List Obj

/-- lodash `get(docGroup, 'docs[0].ok')` (public.js line 120): the `ok`
field of the first attempt, `undefined` when the list is empty or the
first attempt has no `ok`. -/
def firstAttemptOk (g : DocGroup) : Val :=
  match g.docs with
  | [] => .vUndefined
  | a :: _ => objGetD a "ok"

/-- `bulkGet`, per-group tidy `tidyBulkGetDocs` (public.js lines 119-123):
`var doc = get(docGroup, 'docs[0].ok');
if (!doc) throw new ReferenceError('doc ' + docGroup.id + 'not found');
return doc`. -/
def tidyBulkGetDocs (g : DocGroup) : Except PouchyErr Val :=
  if truthy (firstAttemptOk g) then .ok (firstAttemptOk g)
  else .error (.docNotFound g.id)

/-- `bulkGet`, response half `mapBulkGetResultsToRoot` (public.js lines
118-124): `r.results.map(tidyBulkGetDocs)`, where a throw from the map
callback rejects the whole promise with that error and no array is
produced. -/
def mapBulkGetResultsToRoot : List DocGroup → Except PouchyErr (List Val)
  | [] => .ok []
  | g :: gs =>
      match tidyBulkGetDocs g with
      | .error e => .error e
      | .ok d =>
          match mapBulkGetResultsToRoot gs with
          | .error e => .error e
          | .ok rest => .ok (d :: rest)

/-! ## Index manager: `createIndicies` (public.js lines 157-165) -/

/-- lodash `uniq`: first occurrences kept, in order. -/
def uniqAux : List String → List String → List String
  | _, [] => []
  | seen, x :: xs =>
      if seen.contains x then uniqAux seen xs
      else x :: uniqAux (x :: seen) xs

/-- lodash `uniq`. -/
def uniq (l : List String) : List String :=
  uniqAux [] l

/-- The argument of `createIndicies`: a single field name or an array. -/
inductive IndiciesArg : Type where
  | single (name : String)
  | many (names : List String)
deriving Repr, DecidableEq

/-- The field set of the one backend index-creation call (public.js lines
158-159): `indicies = Array.isArray(indicies) ? indicies : [indicies]`,
then `unique(indicies)`. -/
def createIndiciesFields : IndiciesArg → List String
  | .single n => uniq [n]
  | .many ns => uniq ns

/-- The success descriptor the backend's index creation resolves with. -/
structure IndexMeta : Type where
  fields : List String
deriving Repr, DecidableEq

/-- `createIndicies`, failure handler `handleFailCreateIndicies`
(public.js lines 161-164): `if (err.status !== 409) throw err` — the 409
conflict is swallowed (the catch returns `undefined`). -/
def handleFailCreateIndicies (e : BackendErr) : Except BackendErr Unit :=
  if e.status ≠ 409 then .error e else .ok ()

/-- `createIndicies` given the backend's settled response: success passes
through, a 409 failure is converted to success (resolving `undefined`,
here `none`), any other failure propagates. -/
def createIndicies (resp : Except BackendErr IndexMeta) :
    Except BackendErr (Option IndexMeta) :=
  match resp with
  | .ok m => .ok (some m)
  | .error e => (handleFailCreateIndicies e).map (fun _ => none)

/-- Modelled from the spec (§6, external interfaces): the backend's index
creation — not part of src/ — returns a success descriptor, or its
distinguishable "already exists" conflict status 409 when an index over
the same field set already exists; on success the index is recorded. -/
def backendCreateIndex (existing : List (List String))
    (fields : List String) :
    Except BackendErr IndexMeta × List (List String) :=
  if fields ∈ existing then (.error ⟨409⟩, existing)
  else (.ok ⟨fields⟩, fields :: existing)

/-- A full `createIndicies(indicies)` call against the §6 backend model:
returns the call's outcome and the backend's updated index set. -/
def createIndiciesCall (existing : List (List String)) (arg : IndiciesArg) :
    Except BackendErr (Option IndexMeta) × List (List String) :=
  let r := backendCreateIndex existing (createIndiciesFields arg)
  (createIndicies r.1, r.2)

/-- Whether a settled operation succeeded (its promise fulfilled rather
than rejected). -/
def settledOk {ε α : Type} : Except ε α → Bool
  | .ok _ => true
  | .error _ => false

/-! ## Lifecycle coordinator: `destroy` (public.js lines 224-243) -/

/-- The synchronous steps `destroy` performs before the backend destroy:
registering the `complete` listener (the executor of
`new Promise(waitForLiveSyncComplete)` runs synchronously) and the
synchronous `this.syncEmitter.cancel()`. -/
inductive DestroyStep : Type where
  | registerCompleteListener
  | cancelSync
deriving Repr, DecidableEq

/-- The store state `destroy` inspects: `this.syncEmitter`,
`this._replicationOpts` and `this._replicationOpts.live`. -/
structure Store : Type where
  hasSyncEmitter : Bool
  hasReplicationOpts : Bool
  replicationLive : Bool
deriving Repr, DecidableEq

/-- The replication session's completion event name. -/
def completeEvent : String := "complete"

/-- A bluebird promise in the destroy flow, abstracted to the events that
must fire before continuations chained after it run.  `bluebird.resolve()`
waits on nothing; the `isCompleteP` promise waits on `complete`. -/
structure ChainState : Type where
  guards : List String
deriving Repr, DecidableEq

/-- `chain.then(isCompleteP)` (public.js line 235): the argument is the
`isCompleteP` promise OBJECT, not a function.  Promises/A+ §2.2.1 (which
bluebird implements) requires a non-function `onFulfilled` argument to be
ignored, so the resulting chain adopts the state of the original and gains
no dependency on the argument promise's events. -/
def thenWithPromiseArg (c : ChainState) (_argGuards : List String) :
    ChainState :=
  c

/-- What a `destroy()` call does: its ordered synchronous steps, and the
events that must have fired before the chained `bbPouchyDestroy` handler
(`this.db.destroy`) runs. -/
structure DestroyOutcome : Type where
  syncSteps : List DestroyStep
  destroyGuards : List String
deriving Repr, DecidableEq

/-- `destroy` (public.js lines 224-243): start from `bluebird.resolve()`;
when `this.syncEmitter` is set and `this._replicationOpts &&
this._replicationOpts.live`, synchronously register the `complete`
listener (creating `isCompleteP`, which settles on `complete`) and chain
it with `chain.then(isCompleteP)`; when `this.syncEmitter` is set, call
the synchronous `this.syncEmitter.cancel()`; finally chain the function
`bbPouchyDestroy`, which runs `this.db.destroy` once the chain so far has
settled. -/
def destroy (s : Store) : DestroyOutcome :=
  let chain : ChainState := ⟨[]⟩
  if s.hasSyncEmitter then
    if s.hasReplicationOpts && s.replicationLive then
      let isCompletePGuards : List String := [completeEvent]
      let chain := thenWithPromiseArg chain isCompletePGuards
      ⟨[.registerCompleteListener, .cancelSync], chain.guards⟩
    else ⟨[.cancelSync], chain.guards⟩
  else ⟨[], chain.guards⟩

/-! ## Spec-side comparison definitions and concrete inputs -/

/-- Following the words of the spec (C4): a requested identifier "yields a
successful result" when SOME attempt among its response docs carries a
truthy `ok` value — compared against the source's `docs[0].ok` extraction. -/
def specHasSuccessfulResult (g : DocGroup) : Bool :=
  g.docs.any (fun a => truthy (objGetD a "ok"))

/-- A document whose identifier field is present but the empty string. -/
def emptyIdDoc : Obj := [("_id", Val.vStr "")]

/-- An ordinary document used by the save/update witness. -/
def exDoc : Obj := [("beep", Val.vStr "bop")]

/-- A backend write acknowledgment used by the save/update witness. -/
def exMeta : WriteMeta := ⟨"my-doc", "2-abc234"⟩

/-- A bulk-get response attempt that succeeded. -/
def okAttempt : Obj := [("ok", Val.vObj [("_id", Val.vStr "a")])]

/-- A bulk-get response attempt that failed. -/
def errAttempt : Obj := [("error", Val.vStr "missing")]

/-- A response group whose first attempt failed but whose second
succeeded. -/
def mixedGroup : DocGroup := ⟨"a", [errAttempt, okAttempt]⟩

/-- A design document as `all` sees it under `include_docs`. -/
def designDocEx : Val :=
  .vObj [("_id", Val.vStr "_design/idx"), ("_rev", Val.vStr "1-a")]

/-- An enumeration row carrying `designDocEx`. -/
def designRowEx : Obj :=
  [("id", Val.vStr "_design/idx"), ("key", Val.vStr "_design/idx"),
   ("value", Val.vObj [("rev", Val.vStr "1-a")]), ("doc", designDocEx)]

/-- An ordinary document as `all` sees it under `include_docs`. -/
def ordinaryDocEx : Val :=
  .vObj [("_id", Val.vStr "doc-1"), ("_rev", Val.vStr "1-b")]

/-- An enumeration row carrying `ordinaryDocEx`. -/
def ordinaryRowEx : Obj :=
  [("id", Val.vStr "doc-1"), ("key", Val.vStr "doc-1"),
   ("value", Val.vObj [("rev", Val.vStr "1-b")]), ("doc", ordinaryDocEx)]

/-- The backend stub row of §6: `{id, key, value: {rev}}` and nothing
else, with the given field values. -/
def mkStub (iv kv rv : Val) : Obj :=
  [("id", iv), ("key", kv), ("value", .vObj [("rev", rv)])]

/-- A bulk-get entry carrying canonical `_id`/`_rev` names plus a payload
field, used by the remap witness. -/
def exEntry : Obj :=
  [("_id", Val.vStr "a"), ("_rev", Val.vStr "1-r"), ("x", Val.vNum 5)]

/-! ## Helper lemmas about the object model -/

theorem objGet_objSet_self : ∀ (o : Obj) (k : String) (v : Val),
    objGet (objSet o k v) k = some v
  | [], k, v => by simp [objSet, objGet]
  | (k1, w) :: rest, k, v => by
      by_cases h : k1 = k
      · simp [objSet, objGet, h]
      · simp [objSet, objGet, h, objGet_objSet_self rest k v]

theorem objGet_objSet_other : ∀ (o : Obj) (k k2 : String) (v : Val),
    k ≠ k2 → objGet (objSet o k v) k2 = objGet o k2
  | [], k, k2, v, h => by simp [objSet, objGet, h]
  | (k1, w) :: rest, k, k2, v, h => by
      have ih := objGet_objSet_other rest k k2 v h
      by_cases h1 : k1 = k
      · have h2 : ¬ k1 = k2 := by rw [h1]; exact h
        simp [objSet, objGet, h1, h2, h]
      · by_cases h2 : k1 = k2
        · have h3 : ¬ k2 = k := by rw [← h2]; exact h1
          simp [objSet, objGet, h1, h2, h3]
        · simp [objSet, objGet, h1, h2, ih]

theorem objGet_objDelete_self : ∀ (o : Obj) (k : String),
    objGet (objDelete o k) k = none
  | [], k => rfl
  | (k1, w) :: rest, k => by
      by_cases h : k1 = k
      · simpa [objDelete, objGet, h] using objGet_objDelete_self rest k
      · simpa [objDelete, objGet, h] using objGet_objDelete_self rest k

theorem objGet_objDelete_other : ∀ (o : Obj) (k k2 : String),
    k ≠ k2 → objGet (objDelete o k) k2 = objGet o k2
  | [], _, _, _ => rfl
  | (k1, w) :: rest, k, k2, h => by
      have ih := objGet_objDelete_other rest k k2 h
      simp only [objDelete] at ih ⊢
      by_cases h1 : k1 = k
      · have h2 : ¬ k1 = k2 := by rw [h1]; exact h
        simp [objGet, List.filter_cons, h1, h2, h, ih]
      · by_cases h2 : k1 = k2
        · have h3 : ¬ k2 = k := by rw [← h2]; exact h1
          simp [objGet, List.filter_cons, h1, h2, h3]
        · simp [objGet, List.filter_cons, h1, h2, ih]

theorem isNumZero_eq_true_iff (v : Val) : isNumZero v = true ↔ v = .vNum 0 := by
  cases v <;> simp [isNumZero]

theorem objGet_remapIdStep_other (d : Obj) (k : String) (h : k ≠ "id") :
    objGet (remapIdStep d) k = objGet d k := by
  rw [remapIdStep]
  by_cases ht : truthy (objGetD d "_id") = true
  · rw [if_pos ht, objGet_objSet_other _ _ _ _ (Ne.symm h)]
  · rw [if_neg ht]

theorem objGet_remapRevStep_other (d : Obj) (k : String) (h : k ≠ "rev") :
    objGet (remapRevStep d) k = objGet d k := by
  rw [remapRevStep]
  by_cases ht : truthy (objGetD d "_rev") = true
  · rw [if_pos ht, objGet_objSet_other _ _ _ _ (Ne.symm h)]
  · rw [if_neg ht]

theorem objGet_remapIdStep_id (d : Obj) :
    objGet (remapIdStep d) "id" =
      (if truthy (objGetD d "_id") then some (objGetD d "_id")
       else objGet d "id") := by
  rw [remapIdStep]
  by_cases ht : truthy (objGetD d "_id") = true
  · rw [if_pos ht, if_pos ht, objGet_objSet_self]
  · rw [if_neg ht, if_neg ht]

theorem objGet_remapRevStep_rev (d : Obj) :
    objGet (remapRevStep d) "rev" =
      (if truthy (objGetD d "_rev") then some (objGetD d "_rev")
       else objGet d "rev") := by
  rw [remapRevStep]
  by_cases ht : truthy (objGetD d "_rev") = true
  · rw [if_pos ht, if_pos ht, objGet_objSet_self]
  · rw [if_neg ht, if_neg ht]

/-- generalized accumulator lemma for the push-only reduce of `all`. -/
theorem foldl_push (f : Obj → Val) :
    ∀ (rows : List Obj) (acc : List Val),
      rows.foldl (fun r v => r ++ [f v]) acc = acc ++ rows.map f
  | [], acc => by simp
  | v :: rows, acc => by
      simp [List.foldl_cons, foldl_push f rows (acc ++ [f v])]

theorem simplifyAllDocSet_no_design_filter (includeDocs : Bool)
    (rows : List Obj) :
    simplifyAllDocSet includeDocs false rows =
      rows.map (fun v => if includeDocs then objGetD v "doc"
                         else .vObj (normalizeStubRow v)) := by
  have h := foldl_push
    (fun v => if includeDocs then objGetD v "doc"
              else .vObj (normalizeStubRow v)) rows []
  simpa [simplifyAllDocSet] using h

theorem normalizeStubRow_mkStub (iv kv rv : Val) :
    normalizeStubRow (mkStub iv kv rv) = [("_id", iv), ("_rev", rv)] := rfl

/-! ## Claim theorems -/

/-- C2 (counterexample): `save` on a document whose identifier field is
present but holds the empty string performs a `post`, not the `put` the
claim requires for falsy-but-present identifiers: `'' || '' === 0` is
falsy in JS, so the empty string does not reach the `put` branch. -/
theorem save_empty_string_id_post :
    objHas emptyIdDoc "_id" = true
    ∧ objGetD emptyIdDoc "_id" = Val.vStr ""
    ∧ saveMethod emptyIdDoc = WriteMethod.post
    ∧ WriteMethod.post ≠ WriteMethod.put := by
  refine ⟨rfl, rfl, rfl, ?_⟩
  decide

/-- C2 (amended): `save(doc)` performs an update-style write (`put`)
exactly when the identifier field is present AND its value is truthy or
the number zero; any other present-but-falsy identifier (empty string,
`null`, `false`, `undefined`) takes the insert-style `post` path, as does
an absent identifier. -/
theorem saveMethod_put_iff (doc : Obj) :
    saveMethod doc = WriteMethod.put ↔
      ∃ v, objGet doc "_id" = some v
        ∧ (truthy v = true ∨ v = Val.vNum 0) := by
  constructor
  · intro hput
    rcases h : objGet doc "_id" with _ | v
    · exfalso
      rw [saveMethod, objHas, h] at hput
      simp at hput
    · refine ⟨v, rfl, ?_⟩
      rw [saveMethod, objHas, objGetD, h] at hput
      simp only [Option.isSome_some, Option.getD_some, Bool.true_and] at hput
      by_cases ht : truthy v = true
      · exact Or.inl ht
      · by_cases hz : isNumZero v = true
        · exact Or.inr ((isNumZero_eq_true_iff v).mp hz)
        · exfalso
          rw [Bool.not_eq_true] at ht hz
          rw [ht, hz] at hput
          simp at hput
  · rintro ⟨v, hv, hcase⟩
    have hcond : truthy v = true ∨ isNumZero v = true := by
      rcases hcase with h1 | h1
      · exact Or.inl h1
      · exact Or.inr ((isNumZero_eq_true_iff v).mpr h1)
    rw [saveMethod, objHas, objGetD, hv]
    rcases hcond with h1 | h1 <;> simp [h1]

/-- C8: after a successful backend write, `save` and `update` both resolve
with the caller's own document, mutated so that its `_id`/`_rev` fields
hold the backend-assigned values, and no other field of the document is
changed. -/
theorem save_update_mutate_doc_in_place (doc : Obj) (meta : WriteMeta) :
    save doc (.ok meta) = .ok (tidySaveResults doc meta)
    ∧ update doc (.ok meta) = .ok (tidySaveResults doc meta)
    ∧ objGet (tidySaveResults doc meta) "_id" = some (.vStr meta.id)
    ∧ objGet (tidySaveResults doc meta) "_rev" = some (.vStr meta.rev)
    ∧ ∀ k, k ≠ "_id" → k ≠ "_rev" →
        objGet (tidySaveResults doc meta) k = objGet doc k := by
  refine ⟨rfl, rfl, ?_, ?_, ?_⟩
  · rw [tidySaveResults, objGet_objSet_other _ _ _ _ (by decide)]
    exact objGet_objSet_self doc "_id" (.vStr meta.id)
  · exact objGet_objSet_self _ "_rev" (.vStr meta.rev)
  · intro k h1 h2
    rw [tidySaveResults, objGet_objSet_other _ _ _ _ (Ne.symm h2),
      objGet_objSet_other _ _ _ _ (Ne.symm h1)]

/-- C8 (witness): the save/update mutation theorem at the concrete
document `{beep: 'bop'}` and acknowledgment `{id: 'my-doc',
rev: '2-abc234'}`, with the frame condition checked at the field `beep`. -/
theorem save_update_mutate_doc_in_place_witness :
    save exDoc (.ok exMeta) = .ok (tidySaveResults exDoc exMeta)
    ∧ objGet (tidySaveResults exDoc exMeta) "beep" = objGet exDoc "beep" :=
  ⟨(save_update_mutate_doc_in_place exDoc exMeta).1,
   (save_update_mutate_doc_in_place exDoc exMeta).2.2.2.2 "beep"
     (by decide) (by decide)⟩

/-- C6: `bulkGet` on an empty input array — bare or under the `docs`
field — resolves to the empty array immediately, without planning any
backend batched-fetch call. -/
theorem bulkGet_empty_short_circuit :
    bulkGetPrepare (.arr []) = .ok (.immediate [])
    ∧ bulkGetPrepare (.withDocs []) = .ok (.immediate []) :=
  ⟨rfl, rfl⟩

/-- C9: for every non-empty entry array, `bulkGet` plans the one backend
call on the entries as mutated by `remapIdRev`: a truthy `_id`/`_rev` is
copied to the backend-native `id`/`rev` name, both underscore-prefixed
fields are deleted (a falsy one is lost without a replacement), and every
other field of the entry is untouched. -/
theorem bulkGet_remaps_entries_before_backend (docs : List Obj)
    (h : docs ≠ []) :
    bulkGetPrepare (.arr docs) = .ok (.callBackend (docs.map remapIdRev))
    ∧ bulkGetPrepare (.withDocs docs)
        = .ok (.callBackend (docs.map remapIdRev))
    ∧ ∀ d : Obj,
        objGet (remapIdRev d) "_id" = none
        ∧ objGet (remapIdRev d) "_rev" = none
        ∧ objGet (remapIdRev d) "id" =
            (if truthy (objGetD d "_id") then some (objGetD d "_id")
             else objGet d "id")
        ∧ objGet (remapIdRev d) "rev" =
            (if truthy (objGetD d "_rev") then some (objGetD d "_rev")
             else objGet d "rev")
        ∧ ∀ k, k ≠ "_id" → k ≠ "_rev" → k ≠ "id" → k ≠ "rev" →
            objGet (remapIdRev d) k = objGet d k := by
  have hlen : ¬ ((docs.map remapIdRev).length = 0) := by
    simpa [List.length_eq_zero] using h
  refine ⟨by simp [bulkGetPrepare, hlen, h], by simp [bulkGetPrepare, hlen, h], ?_⟩
  intro d
  refine ⟨?_, ?_, ?_, ?_, ?_⟩
  · rw [remapIdRev]
    exact objGet_objDelete_self _ "_id"
  · rw [remapIdRev, objGet_objDelete_other _ _ _ (by decide)]
    exact objGet_objDelete_self _ "_rev"
  · rw [remapIdRev, objGet_objDelete_other _ _ _ (by decide),
      objGet_objDelete_other _ _ _ (by decide),
      objGet_remapRevStep_other _ _ (by decide), objGet_remapIdStep_id]
  · rw [remapIdRev, objGet_objDelete_other _ _ _ (by decide),
      objGet_objDelete_other _ _ _ (by decide), objGet_remapRevStep_rev]
    have h1 : objGet (remapIdStep d) "_rev" = objGet d "_rev" :=
      objGet_remapIdStep_other d "_rev" (by decide)
    have h2 : objGet (remapIdStep d) "rev" = objGet d "rev" :=
      objGet_remapIdStep_other d "rev" (by decide)
    simp only [objGetD, h1, h2]
  · intro k h1 h2 h3 h4
    rw [remapIdRev, objGet_objDelete_other _ _ _ (Ne.symm h1),
      objGet_objDelete_other _ _ _ (Ne.symm h2),
      objGet_remapRevStep_other _ _ h4, objGet_remapIdStep_other _ _ h3]

/-- C9 (witness): the remap theorem at the single concrete entry
`{_id: 'a', _rev: '1-r', x: 5}`. -/
theorem bulkGet_remaps_entries_before_backend_witness :
    bulkGetPrepare (.arr [exEntry])
      = .ok (.callBackend ([exEntry].map remapIdRev))
    ∧ objGet (remapIdRev exEntry) "_id" = none
    ∧ objGet (remapIdRev exEntry) "x" = objGet exEntry "x" :=
  ⟨(bulkGet_remaps_entries_before_backend [exEntry] (by simp)).1,
   ((bulkGet_remaps_entries_before_backend [exEntry] (by simp)).2.2
      exEntry).1,
   ((bulkGet_remaps_entries_before_backend [exEntry] (by simp)).2.2
      exEntry).2.2.2.2 "x" (by decide) (by decide) (by decide) (by decide)⟩

/-- C4 (counterexample): a response group for identifier `a` whose first
attempt errored but whose second attempt succeeded: the group yields a
successful result, yet `bulkGet` rejects the whole call with the
not-found error naming `a` instead of returning that result, because the
source reads `docs[0].ok` only. -/
theorem bulkGet_first_successful_counterexample :
    specHasSuccessfulResult mixedGroup = true
    ∧ mapBulkGetResultsToRoot [mixedGroup] = .error (.docNotFound "a") :=
  ⟨rfl, rfl⟩

/-- C4 (amended): `bulkGet` extracts, for each requested identifier, the
`ok` value of its FIRST listed attempt; the call fails with the not-found
error naming the first identifier in response order whose first attempt
carries no truthy `ok` value — no partial array is returned — and
resolves with the array of first-attempt values, one per requested
identifier, exactly when every identifier's first attempt succeeded. -/
theorem bulkGet_all_or_nothing_first_attempt (results : List DocGroup) :
    mapBulkGetResultsToRoot results =
      match results.find? (fun g => !truthy (firstAttemptOk g)) with
      | some g => .error (.docNotFound g.id)
      | none => .ok (results.map firstAttemptOk) := by
  induction results with
  | nil => rfl
  | cons g gs ih =>
      have hmap : mapBulkGetResultsToRoot (g :: gs) =
          (match tidyBulkGetDocs g with
           | .error e => .error e
           | .ok d =>
               match mapBulkGetResultsToRoot gs with
               | .error e => .error e
               | .ok rest => .ok (d :: rest)) := rfl
      by_cases hg : truthy (firstAttemptOk g) = true
      · have htidy : tidyBulkGetDocs g = .ok (firstAttemptOk g) := by
          rw [tidyBulkGetDocs, if_pos hg]
        rw [List.find?_cons_of_neg _ (by simp [hg]), hmap, htidy, ih]
        cases hfind : List.find? (fun g => !truthy (firstAttemptOk g)) gs <;>
          simp
      · have htidy : tidyBulkGetDocs g = .error (.docNotFound g.id) := by
          rw [tidyBulkGetDocs, if_neg hg]
        rw [List.find?_cons_of_pos _ (by simp [hg]), hmap, htidy]

/-- C5: `createIndicies` issues its one index-creation call over the
de-duplicated field set (a single name is wrapped); the backend's 409
"index already exists" conflict is swallowed into success — so two calls
with the same field set against the §6 backend model both succeed — and
every other backend error propagates unchanged. -/
theorem createIndicies_conflict_swallowed (existing : List (List String))
    (arg : IndiciesArg) (e : BackendErr) (m : IndexMeta) :
    (e.status ≠ 409 → createIndicies (.error e) = .error e)
    ∧ createIndicies (.error ⟨409⟩) = .ok none
    ∧ createIndicies (.ok m) = .ok (some m)
    ∧ (∀ n, createIndiciesFields (.single n) = [n])
    ∧ (∀ ns, createIndiciesFields (.many ns) = uniq ns)
    ∧ settledOk (createIndiciesCall existing arg).1 = true
    ∧ settledOk
        (createIndiciesCall (createIndiciesCall existing arg).2 arg).1
        = true := by
  refine ⟨?_, rfl, rfl, fun n => rfl, fun ns => rfl, ?_, ?_⟩
  · intro h
    simp [createIndicies, handleFailCreateIndicies, h, Except.map]
  · by_cases hmem : createIndiciesFields arg ∈ existing
    · simp [createIndiciesCall, backendCreateIndex, hmem, createIndicies,
        handleFailCreateIndicies, settledOk, Except.map]
    · simp [createIndiciesCall, backendCreateIndex, hmem, createIndicies,
        settledOk, Except.map]
  · by_cases hmem : createIndiciesFields arg ∈ existing
    · simp [createIndiciesCall, backendCreateIndex, hmem, createIndicies,
        handleFailCreateIndicies, settledOk, Except.map]
    · simp [createIndiciesCall, backendCreateIndex, hmem, createIndicies,
        handleFailCreateIndicies, settledOk, Except.map]

/-- C5 (witness): the conflict-swallowing theorem at status 500, and the
two concrete calls `createIndicies('idx')` in a row, both succeeding. -/
theorem createIndicies_conflict_swallowed_witness :
    createIndicies (.error ⟨500⟩) = .error ⟨500⟩
    ∧ settledOk (createIndiciesCall [] (.single "idx")).1 = true
    ∧ settledOk
        (createIndiciesCall (createIndiciesCall [] (.single "idx")).2
          (.single "idx")).1 = true :=
  ⟨(createIndicies_conflict_swallowed [] (.single "idx") ⟨500⟩
      ⟨["idx"]⟩).1 (by decide),
   (createIndicies_conflict_swallowed [] (.single "idx") ⟨500⟩
      ⟨["idx"]⟩).2.2.2.2.2.1,
   (createIndicies_conflict_swallowed [] (.single "idx") ⟨500⟩
      ⟨["idx"]⟩).2.2.2.2.2.2⟩

/-- C1 (the code evaluated at the failing input): with
`includeDesignDocs` false — the default — `all` pushes every row
unfiltered, so a design document returned by the backend enumeration
appears in the result next to the ordinary one; the reserved-prefix
exclusion the claim (and the source's own doc comment) describes is not
applied on this branch. -/
theorem all_default_returns_design_doc :
    matchesDesignDocRegex (jsGet designDocEx "_id") = true
    ∧ all ⟨none, false⟩ [ordinaryRowEx, designRowEx]
        = [ordinaryDocEx, designDocEx] :=
  ⟨rfl, rfl⟩

/-- C3 (the code evaluated at the failing configuration): on a store with
a live replication session, `destroy` does register the `complete`
listener before the synchronous `cancel()`, but the backend destroy is
chained with NO guard on the `complete` event: `chain.then(isCompleteP)`
passes the promise object where `.then` expects a function, which
Promises/A+ §2.2.1 requires to be ignored, so destruction proceeds
without waiting for `complete`. -/
theorem destroy_live_not_guarded_by_complete :
    (destroy ⟨true, true, true⟩).syncSteps
      = [DestroyStep.registerCompleteListener, DestroyStep.cancelSync]
    ∧ (destroy ⟨true, true, true⟩).destroyGuards = []
    ∧ completeEvent ∉ (destroy ⟨true, true, true⟩).destroyGuards :=
  ⟨rfl, rfl, by decide⟩

/-- C10: `destroy` on a store owning a replication session whose `live`
flag is not set still invokes the session's `cancel()`, and chains the
backend destroy with no guard: the underlying store is destroyed
immediately, without waiting for the session's `complete` event. -/
theorem destroy_nonlive_cancels_then_destroys_immediately (s : Store)
    (hs : s.hasSyncEmitter = true) (hl : s.replicationLive = false) :
    destroy s = ⟨[DestroyStep.cancelSync], []⟩ := by
  rcases s with ⟨e, o, l⟩
  simp only at hs hl
  subst hs
  subst hl
  simp [destroy]

/-- C10 (witness): the non-live destroy theorem at the concrete store
with a session and `live = false`. -/
theorem destroy_nonlive_witness :
    destroy ⟨true, true, false⟩ = ⟨[DestroyStep.cancelSync], []⟩ :=
  destroy_nonlive_cancels_then_destroys_immediately ⟨true, true, false⟩
    rfl rfl

/-- C7: `all({include_docs: false})` over §6 stub rows returns records
each carrying exactly the `_id` and `_rev` fields and nothing else — the
stub's `value` and `key` wrappers are stripped and `value.rev` becomes
the `_rev` field. -/
theorem all_includeDocs_false_exact_fields (rows : List Obj)
    (h : ∀ r ∈ rows, ∃ iv kv rv, r = mkStub iv kv rv) :
    ∀ d ∈ all ⟨some false, false⟩ rows,
      ∃ iv rv, d = Val.vObj [("_id", iv), ("_rev", rv)] := by
  intro d hd
  rw [all] at hd
  have hinc : allIncludeDocs ⟨some false, false⟩ = false := rfl
  rw [hinc, simplifyAllDocSet_no_design_filter] at hd
  rcases List.mem_map.mp hd with ⟨r, hr, hdr⟩
  rcases h r hr with ⟨iv, kv, rv, hstub⟩
  subst hstub
  refine ⟨iv, rv, ?_⟩
  rw [← hdr]
  simp [normalizeStubRow_mkStub]

/-- C7 (witness): the exact-fields theorem applied to the one concrete
stub row `{id: 'a', key: 'a', value: {rev: '1-r'}}`. -/
theorem all_includeDocs_false_exact_fields_witness :
    ∃ iv rv, Val.vObj [("_id", Val.vStr "a"), ("_rev", Val.vStr "1-r")]
      = Val.vObj [("_id", iv), ("_rev", rv)] :=
  all_includeDocs_false_exact_fields
    [mkStub (Val.vStr "a") (Val.vStr "a") (Val.vStr "1-r")]
    (by
      intro r hr
      rw [List.mem_singleton] at hr
      exact ⟨_, _, _, hr⟩)
    (Val.vObj [("_id", Val.vStr "a"), ("_rev", Val.vStr "1-r")])
    (by
      have hall : all ⟨some false, false⟩
          [mkStub (Val.vStr "a") (Val.vStr "a") (Val.vStr "1-r")]
          = [Val.vObj [("_id", Val.vStr "a"), ("_rev", Val.vStr "1-r")]] :=
        rfl
      rw [hall]
      exact List.mem_singleton.mpr rfl)

end Pouchy
